import Mathlib

/-!
Verification of the heightmap-generator decoder (src/main.rs) against its
natural-language specification.

The byte source is modelled as a `List ℕ` of bytes (each read applies `% 256`,
which is the identity on real bytes, so the model is total).  Fallible reads
return `Option`; the three ways a component can end are modelled by
`DecodeResult`: a typed `io::Result` error (`ioErr`, the `?` operator),
a process abort (`panicked`, the `expect`/`unwrap` calls in the source), and the
ordinary `ok` outcome.  The run-length loop is defined with explicit fuel; the
extra `fuelOut` outcome is proved unreachable for fuel equal to the declared
cell count.  The 32-bit float fields of the header and of a tile point are kept
as their raw 4-byte little-endian patterns, because no decoding claim inspects
their numeric value; the rasterizer's per-pixel arithmetic is modelled
separately over `ℚ` (exact at every input used in the theorems about it).
-/

set_option autoImplicit false

namespace HeightmapGen

/-- Outcome of running a decoding component: a normal result, a typed
`io::Error` returned to the caller (`ioErr`), a process abort caused by
`expect`/`unwrap` inside the component (`panicked`), or fuel exhaustion of the
explicitly fuelled loop model (`fuelOut`, proved unreachable below). -/
inductive DecodeResult (α : Type) where
  | ok : α → DecodeResult α
  | ioErr : DecodeResult α
  | panicked : DecodeResult α
  | fuelOut : DecodeResult α
  deriving DecidableEq, Repr

/-- True exactly on the `fuelOut` outcome. -/
def DecodeResult.isFuelOut {α : Type} : DecodeResult α → Bool
  | .fuelOut => true
  | _ => false

/-- Cursor read of one byte (`read_u8`): fails with `UnexpectedEof` on an
empty stream. -/
def read_u8 : List ℕ → Option (ℕ × List ℕ)
  | [] => none
  | b :: rest => some (b % 256, rest)

/-- Cursor read of one signed byte (`read_i8`), two's complement. -/
def read_i8 (s : List ℕ) : Option (ℤ × List ℕ) :=
  match read_u8 s with
  | none => none
  | some (b, rest) => some (if b < 128 then (b : ℤ) else (b : ℤ) - 256, rest)

/-- Cursor read of a little-endian `u16` (`read_u16::<LE>`). -/
def read_u16 (s : List ℕ) : Option (ℕ × List ℕ) :=
  match s with
  | b0 :: b1 :: rest => some (b0 % 256 + 256 * (b1 % 256), rest)
  | _ => none

/-- Cursor read of a little-endian `u32` (`read_u32::<LE>`). -/
def read_u32 (s : List ℕ) : Option (ℕ × List ℕ) :=
  match s with
  | b0 :: b1 :: b2 :: b3 :: rest =>
      some (b0 % 256 + 256 * (b1 % 256) + 65536 * (b2 % 256)
              + 16777216 * (b3 % 256), rest)
  | _ => none

/-- Cursor read of a little-endian `f32` (`read_f32::<LE>`), kept as the raw
32-bit pattern: no decoding claim inspects the numeric value of a float
field. -/
def read_f32 (s : List ℕ) : Option (ℕ × List ℕ) :=
  read_u32 s

/-- Is `b` a UTF-8 continuation byte (`0x80..=0xBF`)? -/
def utf8_cont (b : ℕ) : Bool :=
  decide (128 ≤ b % 256) && decide (b % 256 ≤ 191)

/-- Standard UTF-8 validation and decoding to a list of scalar values,
exactly the acceptance rules of Rust's `String::from_utf8` (RFC 3629:
continuation ranges, no overlong forms, no surrogates, nothing above
`U+10FFFF`).  The first argument is fuel; fuel equal to the list length
suffices since every step consumes at least one byte. -/
def utf8_decode : ℕ → List ℕ → Option (List ℕ)
  | _, [] => some []
  | 0, _ :: _ => none
  | fuel + 1, b0 :: t0 =>
    let b := b0 % 256
    if b ≤ 127 then
      match utf8_decode fuel t0 with
      | some cs => some (b :: cs)
      | none => none
    else if 194 ≤ b ∧ b ≤ 223 then
      match t0 with
      | b1 :: t1 =>
        if utf8_cont b1 then
          match utf8_decode fuel t1 with
          | some cs => some (((b - 192) * 64 + (b1 % 256 - 128)) :: cs)
          | none => none
        else none
      | [] => none
    else if 224 ≤ b ∧ b ≤ 239 then
      match t0 with
      | b1 :: b2 :: t2 =>
        let c1 := b1 % 256
        let lo := if b = 224 then 160 else 128
        let hi := if b = 237 then 159 else 191
        if lo ≤ c1 ∧ c1 ≤ hi ∧ utf8_cont b2 then
          match utf8_decode fuel t2 with
          | some cs =>
              some (((b - 224) * 4096 + (c1 - 128) * 64 + (b2 % 256 - 128)) :: cs)
          | none => none
        else none
      | _ => none
    else if 240 ≤ b ∧ b ≤ 244 then
      match t0 with
      | b1 :: b2 :: b3 :: t3 =>
        let c1 := b1 % 256
        let lo := if b = 240 then 144 else 128
        let hi := if b = 244 then 143 else 191
        if lo ≤ c1 ∧ c1 ≤ hi ∧ utf8_cont b2 ∧ utf8_cont b3 then
          match utf8_decode fuel t3 with
          | some cs =>
              some (((b - 240) * 262144 + (c1 - 128) * 4096
                      + (b2 % 256 - 128) * 64 + (b3 % 256 - 128)) :: cs)
          | none => none
        else none
      | _ => none
    else none

/-- The NUL character. -/
def nulc : Char := Char.ofNat 0

/-- Model of `str::trim_matches(char::from(0))`: remove all leading and
trailing NUL characters. -/
def trim_nul (cs : List Char) : List Char :=
  ((cs.dropWhile (fun c => c == nulc)).reverse.dropWhile (fun c => c == nulc)).reverse

/-- Model of `String::from_utf8(buf).unwrap_or_default().trim_matches(char::from(0))`:
decode the bytes as UTF-8, fall back to the empty string on invalid text, then
trim NULs. -/
def decode_fixed (buf : List ℕ) : String :=
  match utf8_decode buf.length buf with
  | some cps => String.mk (trim_nul (cps.map Char.ofNat))
  | none => String.mk (trim_nul [])

/-- Model of `read_fixed_string` (src/main.rs lines 216-225): read exactly
`size` bytes via `read_exact` — whose failure is turned into a process abort by
the `unwrap()` — then decode leniently and trim NULs. -/
def read_fixed_string (size : ℕ) (s : List ℕ) : DecodeResult (String × List ℕ) :=
  if size ≤ s.length then .ok (decode_fixed (s.take size), s.drop size)
  else .panicked

/-- The map header record (src/main.rs lines 91-111).  Integer fields hold the
decoded little-endian value; `f32` fields hold the raw 32-bit pattern. -/
structure MapHeader where
  signature : ℕ
  unk : ℕ
  u1 : ℕ
  u2 : ℕ
  min_height : ℕ
  max_height : ℕ
  w : ℕ
  h : ℕ
  u5 : ℕ
  u6 : ℕ
  u7 : ℕ
  u8 : ℕ
  u9 : ℕ
  us1 : ℕ
  us2 : ℕ
  u10 : ℕ
  u11 : ℕ
  name : String
  deriving DecidableEq, Repr

/-- Model of `MapHeader::parse` (src/main.rs lines 113-136): the 18 fields are
read sequentially in declaration order; a failed typed read propagates through
`?` as a typed error, while a short name field aborts inside
`read_fixed_string`. -/
def MapHeader.parse (s : List ℕ) : DecodeResult (MapHeader × List ℕ) :=
  match read_u32 s with
  | none => .ioErr
  | some (signature, s1) =>
  match read_u32 s1 with
  | none => .ioErr
  | some (unk, s2) =>
  match read_f32 s2 with
  | none => .ioErr
  | some (u1, s3) =>
  match read_f32 s3 with
  | none => .ioErr
  | some (u2, s4) =>
  match read_f32 s4 with
  | none => .ioErr
  | some (min_height, s5) =>
  match read_f32 s5 with
  | none => .ioErr
  | some (max_height, s6) =>
  match read_u32 s6 with
  | none => .ioErr
  | some (w, s7) =>
  match read_u32 s7 with
  | none => .ioErr
  | some (h, s8) =>
  match read_f32 s8 with
  | none => .ioErr
  | some (u5, s9) =>
  match read_f32 s9 with
  | none => .ioErr
  | some (u6, s10) =>
  match read_f32 s10 with
  | none => .ioErr
  | some (u7, s11) =>
  match read_f32 s11 with
  | none => .ioErr
  | some (u8v, s12) =>
  match read_f32 s12 with
  | none => .ioErr
  | some (u9, s13) =>
  match read_u16 s13 with
  | none => .ioErr
  | some (us1, s14) =>
  match read_u16 s14 with
  | none => .ioErr
  | some (us2, s15) =>
  match read_f32 s15 with
  | none => .ioErr
  | some (u10, s16) =>
  match read_f32 s16 with
  | none => .ioErr
  | some (u11, s17) =>
  match read_fixed_string 32 s17 with
  | .ok (name, s18) =>
      .ok ({ signature, unk, u1, u2, min_height, max_height, w, h,
             u5, u6, u7, u8 := u8v, u9, us1, us2, u10, u11, name }, s18)
  | _ => .panicked

/-- One decoded tile record (src/main.rs lines 145-152); `h` holds the raw
32-bit pattern of the `f32` height. -/
structure TilePoint where
  h : ℕ
  unk : ℕ
  r : ℕ
  g : ℕ
  b : ℕ
  deriving DecidableEq, Repr

/-- Model of `TilePoint::parse` (src/main.rs lines 154-164): an 8-byte record,
read as one `f32` then four single bytes, failing with a typed error on a short
stream (the caller turns that into an abort). -/
def TilePoint.parse (s : List ℕ) : Option (TilePoint × List ℕ) :=
  match read_f32 s with
  | none => none
  | some (hv, s1) =>
  match read_u8 s1 with
  | none => none
  | some (unk, s2) =>
  match read_u8 s2 with
  | none => none
  | some (r, s3) =>
  match read_u8 s3 with
  | none => none
  | some (g, s4) =>
  match read_u8 s4 with
  | none => none
  | some (b, s5) => some ({ h := hv, unk, r, g, b }, s5)

/-- Model of the `(0..read_size).for_each` loop inside `parse_points`: read
`k` consecutive tile records, in stream order.  A failed record read yields
`none`, which the loop model below turns into the abort performed by
`expect("Failed to parse point")`. -/
def read_run_points : ℕ → List ℕ → Option (List TilePoint × List ℕ)
  | 0, s => some ([], s)
  | k + 1, s =>
    match TilePoint.parse s with
    | none => none
    | some (p, s1) =>
      match read_run_points k s1 with
      | none => none
      | some (ps, s2) => some (p :: ps, s2)

/-- The `while counter < total` loop of `parse_points` (src/main.rs lines
175-196), with explicit fuel bounding the number of iterations.  Each
iteration reads one signed run code `n`; `n ≥ 0` is a data run of `1 + n`
records appended to `points` with as many `1` entries appended to the mask,
`n < 0` is a skip run of `n.natAbs` cells appending `0` entries; the counter
advances by the run length.  A failed run-code read is the typed error of
`read_i8()?`; a failed record read is the abort of the inner `expect`. -/
def ppLoop : ℕ → ℕ → ℕ → List ℕ → List ℕ → List TilePoint →
    DecodeResult ((List ℕ × List TilePoint) × List ℕ)
  | 0, total, counter, s, enabled_points, points =>
      if counter < total then .fuelOut else .ok ((enabled_points, points), s)
  | fuel + 1, total, counter, s, enabled_points, points =>
      if counter < total then
        match read_i8 s with
        | none => .ioErr
        | some (n, s1) =>
          if 0 ≤ n then
            match read_run_points (1 + n.toNat) s1 with
            | none => .panicked
            | some (ps, s2) =>
                ppLoop fuel total (counter + (1 + n.toNat)) s2
                  (enabled_points ++ List.replicate (1 + n.toNat) 1) (points ++ ps)
          else
            ppLoop fuel total (counter + n.natAbs) s1
              (enabled_points ++ List.replicate n.natAbs 0) points
      else .ok ((enabled_points, points), s)

/-- Model of `parse_points` (src/main.rs lines 166-199): run the loop starting
from `counter = 0` with empty accumulators; fuel `w * h` is proved sufficient
below. -/
def parse_points (header : MapHeader) (s : List ℕ) :
    DecodeResult ((List ℕ × List TilePoint) × List ℕ) :=
  ppLoop (header.w * header.h) (header.w * header.h) 0 s [] []

/-- The decoded map (src/main.rs lines 138-143). -/
structure Map where
  header : MapHeader
  points : List TilePoint
  enabled : List ℕ
  deriving DecidableEq, Repr

/-- Model of `Map::parse` (src/main.rs lines 201-214): a header failure is
turned into an abort by `expect("Invalid map header")`; a typed error of
`parse_points` is replaced by empty vectors via `unwrap_or_default()`; an abort
inside `parse_points` propagates.  (The `fuelOut` arm is dead: fuel `w * h` is
proved sufficient below.) -/
def Map.parse (s : List ℕ) : DecodeResult Map :=
  match MapHeader.parse s with
  | .ok (header, s1) =>
    (match parse_points header s1 with
     | .ok ((enabled, points), _) => .ok { header, points, enabled }
     | .ioErr => .ok { header, points := [], enabled := [] }
     | _ => .panicked)
  | _ => .panicked

/-- Model of `get_position` (src/main.rs lines 83-89): linear row-major index
to bottom-up image coordinates. -/
def get_position (index width height : ℕ) : ℕ × ℕ :=
  (index % width, height - 1 - index / width)

/-- Model of the narrowing cast `expr as u8` applied to an `f32` value
(src/main.rs line 71), on the exact rational value: truncation toward zero
with saturation at the bounds of `u8`. -/
def rust_f32_as_u8 (q : ℚ) : ℕ :=
  min 255 (Int.toNat (Int.floor q))

/-- Model of the per-pixel intensity computation of `create_map_image`
(src/main.rs lines 70-71), with the `f32` arithmetic carried out exactly over
`ℚ`: at every input used in the theorems below each `f32` operation is exact,
so the rational value agrees with the IEEE-754 one. -/
def pixel_intensity (ht mn mx : ℚ) : ℕ :=
  let height_offset := (ht - mn) / (mx - mn)
  rust_f32_as_u8 (255 * height_offset)

/-- The intensity the specification prescribes, in its own words: round
`255 * normalized` to the nearest integer. -/
def spec_intensity (ht mn mx : ℚ) : ℤ :=
  round (255 * ((ht - mn) / (mx - mn)))

/-- Byte of a stream at an absolute offset (0 when out of range), used to state
the offset-table form of the header decoder. -/
def byteAt : List ℕ → ℕ → ℕ
  | [], _ => 0
  | b :: _, 0 => b % 256
  | _ :: s, i + 1 => byteAt s i

/-- Little-endian `u32` at an absolute offset of a stream. -/
def u32At (s : List ℕ) (i : ℕ) : ℕ :=
  byteAt s i + 256 * byteAt s (i + 1) + 65536 * byteAt s (i + 2)
    + 16777216 * byteAt s (i + 3)

/-- Little-endian `u16` at an absolute offset of a stream. -/
def u16At (s : List ℕ) (i : ℕ) : ℕ :=
  byteAt s i + 256 * byteAt s (i + 1)

/-- The header value determined by the corrected offset table, with the name
field replaced by an arbitrary string. -/
def headerFields (s : List ℕ) (nm : String) : MapHeader :=
  { signature := u32At s 0, unk := u32At s 4, u1 := u32At s 8, u2 := u32At s 12,
    min_height := u32At s 16, max_height := u32At s 20, w := u32At s 24,
    h := u32At s 28, u5 := u32At s 32, u6 := u32At s 36, u7 := u32At s 40,
    u8 := u32At s 44, u9 := u32At s 48, us1 := u16At s 52, us2 := u16At s 54,
    u10 := u32At s 56, u11 := u32At s 60, name := nm }

/-- The header value determined by the corrected offset table: typed fields at
offsets 0 to 63, the 32-byte name at offset 64. -/
def headerAt (s : List ℕ) : MapHeader :=
  headerFields s (decode_fixed ((s.drop 64).take 32))

/-- A header with a 1-by-1 grid and every other field zero, as decoded from
`hdr96_w1h1`. -/
def hm11 : MapHeader :=
  { signature := 0, unk := 0, u1 := 0, u2 := 0, min_height := 0, max_height := 0,
    w := 1, h := 1, u5 := 0, u6 := 0, u7 := 0, u8 := 0, u9 := 0,
    us1 := 0, us2 := 0, u10 := 0, u11 := 0, name := "" }

/-- A header of all zero fields, as decoded from 96 zero bytes. -/
def hm00 : MapHeader :=
  { signature := 0, unk := 0, u1 := 0, u2 := 0, min_height := 0, max_height := 0,
    w := 0, h := 0, u5 := 0, u6 := 0, u7 := 0, u8 := 0, u9 := 0,
    us1 := 0, us2 := 0, u10 := 0, u11 := 0, name := "" }

/-- A complete 96-byte header stream declaring a 1-by-1 grid (width at offset
24, height at offset 28), all other bytes zero. -/
def hdr96_w1h1 : List ℕ :=
  List.replicate 24 0 ++ [1, 0, 0, 0] ++ [1, 0, 0, 0] ++ List.replicate 64 0

/-- The tile record decoded from bytes `[170, 0, 0, 0, 7, 16, 32, 48]`. -/
def tp1 : TilePoint := { h := 170, unk := 7, r := 16, g := 32, b := 48 }

/-- The tile record decoded from bytes `[171, 0, 0, 0, 8, 17, 33, 49]`. -/
def tp2 : TilePoint := { h := 171, unk := 8, r := 17, g := 33, b := 49 }

/-- A tile stream for a 1-cell grid whose single run code `1` declares a data
run of two records: the run overshoots the grid by one cell. -/
def c2_stream : List ℕ :=
  [1, 170, 0, 0, 0, 7, 16, 32, 48, 171, 0, 0, 0, 8, 17, 33, 49]

/-- A tile stream for a 1-cell grid whose single run code `0xFE` (-2) declares
a skip run of two cells: the run overshoots the grid by one cell. -/
def c3_stream : List ℕ := [254]

/-- A tile stream whose run code `0` announces one data record but whose
record is truncated after three bytes. -/
def c4_stream : List ℕ := [0, 170, 0, 0]

/-- A tile stream whose run code `0` is followed by exactly five bytes: enough
for the five-byte record the specification describes, short of the eight bytes
the code reads. -/
def c5_stream : List ℕ := [0, 170, 0, 0, 0, 16]

/-! ### Helper lemmas about the reader primitives -/

lemma read_u32_length : ∀ {s : List ℕ} {v : ℕ} {r : List ℕ},
    read_u32 s = some (v, r) → s.length = r.length + 4
  | [], _, _, h => by simp [read_u32] at h
  | [_], _, _, h => by simp [read_u32] at h
  | [_, _], _, _, h => by simp [read_u32] at h
  | [_, _, _], _, _, h => by simp [read_u32] at h
  | _ :: _ :: _ :: _ :: _, _, _, h => by
      simp only [read_u32, Option.some.injEq, Prod.mk.injEq] at h
      simp [← h.2]

lemma read_u16_length : ∀ {s : List ℕ} {v : ℕ} {r : List ℕ},
    read_u16 s = some (v, r) → s.length = r.length + 2
  | [], _, _, h => by simp [read_u16] at h
  | [_], _, _, h => by simp [read_u16] at h
  | _ :: _ :: _, _, _, h => by
      simp only [read_u16, Option.some.injEq, Prod.mk.injEq] at h
      simp [← h.2]

lemma read_u32_drop : ∀ (k : ℕ) (s : List ℕ), k + 4 ≤ s.length →
    read_u32 (s.drop k) = some (u32At s k, s.drop (k + 4))
  | 0, _ :: _ :: _ :: _ :: _, _ => rfl
  | 0, [], h => by simp at h
  | 0, [_], h => by simp at h
  | 0, [_, _], h => by simp at h
  | 0, [_, _, _], h => by simp at h
  | k + 1, [], h => by simp at h
  | k + 1, _ :: s, h => read_u32_drop k s (by simp at h; omega)

lemma read_u16_drop : ∀ (k : ℕ) (s : List ℕ), k + 2 ≤ s.length →
    read_u16 (s.drop k) = some (u16At s k, s.drop (k + 2))
  | 0, _ :: _ :: _, _ => rfl
  | 0, [], h => by simp at h
  | 0, [_], h => by simp at h
  | k + 1, [], h => by simp at h
  | k + 1, _ :: s, h => read_u16_drop k s (by simp at h; omega)

lemma read_run_points_length : ∀ (k : ℕ) (s : List ℕ) (ps : List TilePoint) (r : List ℕ),
    read_run_points k s = some (ps, r) → ps.length = k := by
  intro k
  induction k with
  | zero =>
      intro s ps r h
      simp only [read_run_points, Option.some.injEq, Prod.mk.injEq] at h
      simp [← h.1]
  | succ k ih =>
      intro s ps r h
      simp only [read_run_points] at h
      split at h
      · simp at h
      · split at h
        · simp at h
        · rename_i p s1 hp ps2 s2 hq
          simp only [Option.some.injEq, Prod.mk.injEq] at h
          rw [← h.1, List.length_cons, ih _ _ _ hq]

/-! ### Helper lemmas about the run-length loop -/

lemma ppLoop_fuel_aux : ∀ (fuel total counter : ℕ) (s en : List ℕ) (pts : List TilePoint),
    total - counter ≤ fuel → (ppLoop fuel total counter s en pts).isFuelOut = false := by
  intro fuel
  induction fuel with
  | zero =>
      intro total counter s en pts hle
      have hc : ¬ counter < total := by omega
      simp [ppLoop, hc, DecodeResult.isFuelOut]
  | succ fuel ih =>
      intro total counter s en pts hle
      by_cases hc : counter < total
      · simp only [ppLoop, if_pos hc]
        rcases hr : read_i8 s with _ | ⟨n, s1⟩
        · simp [DecodeResult.isFuelOut]
        · by_cases hn : 0 ≤ n
          · simp only [if_pos hn]
            rcases hp : read_run_points (1 + n.toNat) s1 with _ | ⟨ps, s2⟩
            · simp [DecodeResult.isFuelOut]
            · exact ih total (counter + (1 + n.toNat)) s2 _ _ (by omega)
          · simp only [if_neg hn]
            exact ih total (counter + n.natAbs) s1 _ _ (by omega)
      · simp [ppLoop, hc, DecodeResult.isFuelOut]

lemma ppLoop_ok_mask_aux : ∀ (fuel total counter : ℕ) (s en0 : List ℕ)
    (pts0 : List TilePoint) (en rest : List ℕ) (pts : List TilePoint),
    ppLoop fuel total counter s en0 pts0 = .ok ((en, pts), rest) →
    en0.count 1 = pts0.length → en0.length = counter →
    en.count 1 = pts.length ∧ total ≤ en.length := by
  intro fuel
  induction fuel with
  | zero =>
      intro total counter s en0 pts0 en rest pts h hcnt hlen
      by_cases hc : counter < total
      · simp [ppLoop, hc] at h
      · simp only [ppLoop, if_neg hc, DecodeResult.ok.injEq, Prod.mk.injEq] at h
        obtain ⟨⟨h1, h2⟩, h3⟩ := h
        subst h1; subst h2
        exact ⟨hcnt, by omega⟩
  | succ fuel ih =>
      intro total counter s en0 pts0 en rest pts h hcnt hlen
      by_cases hc : counter < total
      · simp only [ppLoop, if_pos hc] at h
        rcases hr : read_i8 s with _ | ⟨n, s1⟩ <;> rw [hr] at h
        · simp at h
        · by_cases hn : 0 ≤ n
          · simp only [if_pos hn] at h
            rcases hp : read_run_points (1 + n.toNat) s1 with _ | ⟨ps, s2⟩ <;> rw [hp] at h
            · simp at h
            · have hk := read_run_points_length _ _ _ _ hp
              exact ih total (counter + (1 + n.toNat)) s2
                (en0 ++ List.replicate (1 + n.toNat) 1) (pts0 ++ ps) en rest pts h
                (by simp [List.count_append, List.count_replicate_self, hcnt, hk])
                (by simp [List.length_append, hlen])
          · simp only [if_neg hn] at h
            exact ih total (counter + n.natAbs) s1
              (en0 ++ List.replicate n.natAbs 0) pts0 en rest pts h
              (by simp [List.count_append, List.count_replicate, hcnt])
              (by simp [List.length_append, hlen])
      · simp only [ppLoop, if_neg hc, DecodeResult.ok.injEq, Prod.mk.injEq] at h
        obtain ⟨⟨h1, h2⟩, h3⟩ := h
        subst h1; subst h2
        exact ⟨hcnt, by omega⟩

/-! ### Header decoder: sequential parse equals the offset table -/

lemma mapHeader_parse_short (s : List ℕ) (hs : s.length < 64) :
    MapHeader.parse s = .ioErr := by
  unfold MapHeader.parse
  split
  · rfl
  rename_i v0 s1 h0
  have l0 := read_u32_length h0
  split
  · rfl
  rename_i v1 s2 h1
  have l1 := read_u32_length h1
  split
  · rfl
  rename_i v2 s3 h2
  have l2 := read_u32_length h2
  split
  · rfl
  rename_i v3 s4 h3
  have l3 := read_u32_length h3
  split
  · rfl
  rename_i v4 s5 h4
  have l4 := read_u32_length h4
  split
  · rfl
  rename_i v5 s6 h5
  have l5 := read_u32_length h5
  split
  · rfl
  rename_i v6 s7 h6
  have l6 := read_u32_length h6
  split
  · rfl
  rename_i v7 s8 h7
  have l7 := read_u32_length h7
  split
  · rfl
  rename_i v8 s9 h8
  have l8 := read_u32_length h8
  split
  · rfl
  rename_i v9 s10 h9
  have l9 := read_u32_length h9
  split
  · rfl
  rename_i v10 s11 h10
  have l10 := read_u32_length h10
  split
  · rfl
  rename_i v11 s12 h11
  have l11 := read_u32_length h11
  split
  · rfl
  rename_i v12 s13 h12
  have l12 := read_u32_length h12
  split
  · rfl
  rename_i v13 s14 h13
  have l13 := read_u16_length h13
  split
  · rfl
  rename_i v14 s15 h14
  have l14 := read_u16_length h14
  split
  · rfl
  rename_i v15 s16 h15
  have l15 := read_u32_length h15
  split
  · rfl
  rename_i v16 s17 h16
  have l16 := read_u32_length h16
  exfalso
  omega

lemma mapHeader_parse_of_64 (s : List ℕ) (h64 : 64 ≤ s.length) :
    MapHeader.parse s =
      match read_fixed_string 32 (s.drop 64) with
      | .ok (nm, rest) => .ok (headerFields s nm, rest)
      | _ => .panicked := by
  have e0 : read_u32 s = some (u32At s 0, s.drop 4) := by
    simpa using read_u32_drop 0 s (by omega)
  have e4 : read_u32 (s.drop 4) = some (u32At s 4, s.drop 8) := by
    simpa using read_u32_drop 4 s (by omega)
  have e8 : read_u32 (s.drop 8) = some (u32At s 8, s.drop 12) := by
    simpa using read_u32_drop 8 s (by omega)
  have e12 : read_u32 (s.drop 12) = some (u32At s 12, s.drop 16) := by
    simpa using read_u32_drop 12 s (by omega)
  have e16 : read_u32 (s.drop 16) = some (u32At s 16, s.drop 20) := by
    simpa using read_u32_drop 16 s (by omega)
  have e20 : read_u32 (s.drop 20) = some (u32At s 20, s.drop 24) := by
    simpa using read_u32_drop 20 s (by omega)
  have e24 : read_u32 (s.drop 24) = some (u32At s 24, s.drop 28) := by
    simpa using read_u32_drop 24 s (by omega)
  have e28 : read_u32 (s.drop 28) = some (u32At s 28, s.drop 32) := by
    simpa using read_u32_drop 28 s (by omega)
  have e32 : read_u32 (s.drop 32) = some (u32At s 32, s.drop 36) := by
    simpa using read_u32_drop 32 s (by omega)
  have e36 : read_u32 (s.drop 36) = some (u32At s 36, s.drop 40) := by
    simpa using read_u32_drop 36 s (by omega)
  have e40 : read_u32 (s.drop 40) = some (u32At s 40, s.drop 44) := by
    simpa using read_u32_drop 40 s (by omega)
  have e44 : read_u32 (s.drop 44) = some (u32At s 44, s.drop 48) := by
    simpa using read_u32_drop 44 s (by omega)
  have e48 : read_u32 (s.drop 48) = some (u32At s 48, s.drop 52) := by
    simpa using read_u32_drop 48 s (by omega)
  have e52 : read_u16 (s.drop 52) = some (u16At s 52, s.drop 54) := by
    simpa using read_u16_drop 52 s (by omega)
  have e54 : read_u16 (s.drop 54) = some (u16At s 54, s.drop 56) := by
    simpa using read_u16_drop 54 s (by omega)
  have e56 : read_u32 (s.drop 56) = some (u32At s 56, s.drop 60) := by
    simpa using read_u32_drop 56 s (by omega)
  have e60 : read_u32 (s.drop 60) = some (u32At s 60, s.drop 64) := by
    simpa using read_u32_drop 60 s (by omega)
  simp only [MapHeader.parse, read_f32, e0, e4, e8, e12, e16, e20, e24, e28,
    e32, e36, e40, e44, e48, e52, e54, e56, e60, headerFields]

/-! ### Claim theorems -/

/-- C7 (amended): the header decoder reads the 18 declared fields in the fixed
declared order — equivalently, the sequential cursor parse equals the absolute
offset table `headerAt` — consuming exactly 96 bytes (64 bytes of typed fields
plus the 32-byte NUL-trimmed name) and performing no validation of field
values; a stream shorter than 64 bytes yields the typed `UnexpectedEof`
failure of a typed-field read, while a stream of 64 to 95 bytes aborts inside
the name read (`read_exact(..).unwrap()`) instead of returning a typed
error. -/
theorem mapHeader_parse_characterization (s : List ℕ) :
    MapHeader.parse s =
      if 96 ≤ s.length then .ok (headerAt s, s.drop 96)
      else if 64 ≤ s.length then .panicked
      else .ioErr := by
  by_cases h96 : 96 ≤ s.length
  · rw [mapHeader_parse_of_64 s (by omega), if_pos h96]
    have h32 : 32 ≤ (s.drop 64).length := by
      simp only [List.length_drop]; omega
    simp only [read_fixed_string, if_pos h32, List.drop_drop, headerAt]
  · by_cases h64 : 64 ≤ s.length
    · rw [mapHeader_parse_of_64 s h64, if_neg h96, if_pos h64]
      have h32 : ¬ 32 ≤ (s.drop 64).length := by
        simp only [List.length_drop]; omega
      simp only [read_fixed_string, if_neg h32]
    · rw [mapHeader_parse_short s (by omega), if_neg h96, if_neg h64]

/-- C7 (counterexample to the claim as stated): a stream of exactly 96 zero
bytes — shorter than the 100 bytes the claim requires — parses successfully,
leaves no unconsumed bytes (so exactly 96, not 100, bytes are consumed), and
its zero grid size is accepted without validation. -/
theorem header_consumes_96_bytes_not_100 :
    MapHeader.parse (List.replicate 96 0) = .ok (hm00, []) ∧
    (List.replicate 96 (0 : ℕ)).length < 100 := by
  constructor
  · decide
  · decide

/-- C1 (code bug): on a well-formed 96-byte header declaring a 1-by-1 grid
followed by an empty tile stream, `parse_points` fails with the typed
`UnexpectedEof` of `read_i8()?`, yet `Map::parse` swallows that failure with
`unwrap_or_default()` and returns a `Map` whose `points` and `enabled`
sequences are the empty default — exactly the substitution the claim rules
out. -/
theorem map_parse_substitutes_default_on_tile_error :
    parse_points hm11 [] = .ioErr ∧
    Map.parse hdr96_w1h1 = .ok { header := hm11, points := [], enabled := [] } := by
  constructor
  · decide
  · decide

/-- C2 (code bug): on a 1-cell grid, the run code `1` declares a data run of
two records, which pushes the consumed-cell counter strictly past
`total_cells = 1`; the decoder has no `RunOverflow` error and accepts the run,
returning an enabled mask longer than the grid. -/
theorem parse_points_accepts_run_overflow :
    parse_points hm11 c2_stream = .ok (([1, 1], [tp1, tp2]), []) ∧
    hm11.w * hm11.h < ([1, 1] : List ℕ).length := by
  constructor
  · decide
  · decide

/-- C3 (counterexample to the claim as stated): the tile-stream decode of a
skip run of two cells on a 1-cell grid succeeds, yet the resulting map has
`enabled.length = 2 ≠ 1 = width * height`. -/
theorem map_enabled_length_exceeds_grid :
    Map.parse (hdr96_w1h1 ++ c3_stream) =
      .ok { header := hm11, points := [], enabled := [0, 0] } ∧
    ([0, 0] : List ℕ).length ≠ hm11.w * hm11.h := by
  constructor
  · decide
  · decide

/-- C3 (amended): on every input on which the tile-stream decode succeeds, the
number of `1` (enabled) entries of the mask equals `points.length`, and the
mask length is at least `width * height` — equality can fail, because a final
overshooting run is accepted (see the counterexample). -/
theorem parse_points_ok_mask_invariant (header : MapHeader) (s en rest : List ℕ)
    (pts : List TilePoint)
    (hok : parse_points header s = .ok ((en, pts), rest)) :
    en.count 1 = pts.length ∧ header.w * header.h ≤ en.length :=
  ppLoop_ok_mask_aux (header.w * header.h) (header.w * header.h) 0 s [] [] en rest pts
    hok rfl rfl

/-- C3 witness: the amended invariant evaluated on a concrete successful
decode (run code `0`, one record, 1-by-1 grid). -/
theorem parse_points_ok_mask_invariant_witness :
    ([1] : List ℕ).count 1 = ([tp1] : List TilePoint).length ∧
    hm11.w * hm11.h ≤ ([1] : List ℕ).length :=
  parse_points_ok_mask_invariant hm11 [0, 170, 0, 0, 0, 7, 16, 32, 48] [1] [] [tp1]
    (by decide)

/-- C4 (code bug): when the stream ends in the middle of a tile record (run
code `0` followed by a 3-byte fragment), the decoder does not return the typed
`UnexpectedEof`: the `expect("Failed to parse point")` inside `parse_points`
aborts the process, and the abort propagates through `Map::parse`. -/
theorem parse_points_panics_on_truncated_record :
    parse_points hm11 c4_stream = .panicked ∧
    Map.parse (hdr96_w1h1 ++ c4_stream) = .panicked := by
  constructor
  · decide
  · decide

/-- C5 (counterexample to the claim as stated): a tile record is eight bytes
(a 4-byte float and four single bytes), not five: five bytes after a run code
`0` are not enough for the one declared record and the decode aborts, while
eight bytes decode to exactly one record consuming all eight. -/
theorem tile_record_is_eight_bytes_not_five :
    TilePoint.parse [170, 0, 0, 0, 16] = none ∧
    TilePoint.parse [170, 0, 0, 0, 7, 16, 32, 48] = some (tp1, []) ∧
    parse_points hm11 c5_stream = .panicked := by
  refine ⟨?_, ?_, ?_⟩
  · decide
  · decide
  · decide

/-- C5 (amended): one iteration of the run-length loop on run code `n`: if
`n ≥ 0` the loop reads exactly `1 + n` eight-byte records, appends them to the
point list in read order, appends `1 + n` enabled entries to the mask, and
advances the counter by `1 + n`; if `n < 0` it reads no point data, appends
`n.natAbs` disabled entries, and advances the counter by `n.natAbs`. -/
theorem ppLoop_run_step (fuel total counter : ℕ) (s s1 en : List ℕ)
    (pts : List TilePoint) (n : ℤ) (hc : counter < total)
    (hr : read_i8 s = some (n, s1)) :
    (0 ≤ n → ∀ (ps : List TilePoint) (s2 : List ℕ),
        read_run_points (1 + n.toNat) s1 = some (ps, s2) →
        ps.length = 1 + n.toNat ∧
        ppLoop (fuel + 1) total counter s en pts =
          ppLoop fuel total (counter + (1 + n.toNat)) s2
            (en ++ List.replicate (1 + n.toNat) 1) (pts ++ ps)) ∧
    (n < 0 →
        ppLoop (fuel + 1) total counter s en pts =
          ppLoop fuel total (counter + n.natAbs) s1
            (en ++ List.replicate n.natAbs 0) pts) := by
  constructor
  · intro hn ps s2 hp
    exact ⟨read_run_points_length _ _ _ _ hp, by simp [ppLoop, hc, hr, hn, hp]⟩
  · intro hn
    have hn2 : ¬ 0 ≤ n := by omega
    simp [ppLoop, hc, hr, hn2]

/-- C5 witness: the loop step evaluated at run code `0` on a 1-cell grid with
one following eight-byte record. -/
theorem ppLoop_run_step_witness :
    ((0 : ℤ) ≤ 0 → ∀ (ps : List TilePoint) (s2 : List ℕ),
        read_run_points (1 + (0 : ℤ).toNat) [170, 0, 0, 0, 7, 16, 32, 48] =
          some (ps, s2) →
        ps.length = 1 + (0 : ℤ).toNat ∧
        ppLoop (0 + 1) 1 0 [0, 170, 0, 0, 0, 7, 16, 32, 48] [] [] =
          ppLoop 0 1 (0 + (1 + (0 : ℤ).toNat)) s2
            ([] ++ List.replicate (1 + (0 : ℤ).toNat) 1) ([] ++ ps)) ∧
    ((0 : ℤ) < 0 →
        ppLoop (0 + 1) 1 0 [0, 170, 0, 0, 0, 7, 16, 32, 48] [] [] =
          ppLoop 0 1 (0 + (0 : ℤ).natAbs) [170, 0, 0, 0, 7, 16, 32, 48]
            ([] ++ List.replicate (0 : ℤ).natAbs 0) []) :=
  ppLoop_run_step 0 1 0 [0, 170, 0, 0, 0, 7, 16, 32, 48] [170, 0, 0, 0, 7, 16, 32, 48]
    [] [] 0 (by decide) (by decide)

/-- C6: the coordinate mapper is the pure function
`(index mod width, height - 1 - index div width)`, and it round-trips: for
every positive grid and in-range index, `(height - 1 - y) * width + x` is the
original index. -/
theorem get_position_roundtrip (index width height : ℕ)
    (_hw : 0 < width) (hh : 0 < height) (hi : index < width * height) :
    get_position index width height = (index % width, height - 1 - index / width) ∧
    (height - 1 - (get_position index width height).2) * width
        + (get_position index width height).1 = index := by
  refine ⟨rfl, ?_⟩
  have hq : index / width < height := Nat.div_lt_of_lt_mul hi
  have hs : height - 1 - (height - 1 - index / width) = index / width :=
    Nat.sub_sub_self (by omega)
  simp only [get_position]
  rw [hs, Nat.mul_comm]
  exact Nat.div_add_mod index width

/-- C6 witness: the round-trip evaluated at `index = 5` on a 3-by-4 grid. -/
theorem get_position_roundtrip_witness :
    get_position 5 3 4 = (5 % 3, 4 - 1 - 5 / 3) ∧
    (4 - 1 - (get_position 5 3 4).2) * 3 + (get_position 5 3 4).1 = 5 :=
  get_position_roundtrip 5 3 4 (by decide) (by decide) (by decide)

/-- C8 (counterexample to the claim as stated): with `min_height = 0`,
`max_height = 2` and an enabled point of height `1` — every `f32` operation
involved is exact — the code computes `255 * 0.5 = 127.5` and the `as u8`
narrowing truncates it to `127`, while the claimed `round(255 * normalized)`
is `128`. -/
theorem intensity_truncates_not_rounds :
    pixel_intensity 1 0 2 = 127 ∧ spec_intensity 1 0 2 = 128 := by
  constructor
  · norm_num [pixel_intensity, rust_f32_as_u8]
    decide
  · norm_num [spec_intensity, round_eq]

/-- C8 (amended): given `max_height > min_height`, an enabled point at
`min_height` maps to intensity 0 and one at `max_height` maps to intensity
255, the intensity being `255 * normalized` truncated toward zero (not
rounded) and narrowed to 8 bits. -/
theorem pixel_intensity_endpoints (mn mx : ℚ) (hlt : mn < mx) :
    pixel_intensity mn mn mx = 0 ∧ pixel_intensity mx mn mx = 255 := by
  have hne : mx - mn ≠ 0 := sub_ne_zero_of_ne hlt.ne'
  constructor
  · norm_num [pixel_intensity, rust_f32_as_u8]
  · norm_num [pixel_intensity, rust_f32_as_u8, div_self hne]

/-- C8 witness: the endpoint intensities evaluated at `min_height = 0`,
`max_height = 2`. -/
theorem pixel_intensity_endpoints_witness :
    pixel_intensity 0 0 2 = 0 ∧ pixel_intensity 2 0 2 = 255 :=
  pixel_intensity_endpoints 0 2 (by norm_num)

/-- C9: the run-length loop terminates within `total_cells` iterations on
every input: each iteration advances the counter by at least one cell (a data
run has length `1 + n ≥ 1`, a skip run `n.natAbs ≥ 1`), so fuel
`width * height` is never exhausted. -/
theorem parse_points_fuel_sufficient (header : MapHeader) (s : List ℕ) :
    (parse_points header s).isFuelOut = false :=
  ppLoop_fuel_aux (header.w * header.h) (header.w * header.h) 0 s [] [] (by omega)

end HeightmapGen
